import Mathlib

/-!
# ParseAutoRia — verification of the spec against the code

Shallow embedding of the ParseAutoRia scraper (src/utils.py, src/scraper.py,
src/database.py).  Pure text-normalization functions are translated directly;
effectful components (HTTP fetch, database store) are embedded as explicit
state passing over an environment describing the external outcomes.

Conventions of the embedding:
* Python `int()` applied to a regex capture that may contain whitespace is
  modelled as `Option Int`: `none` models the `ValueError` the call raises.
* Python float arithmetic `int(amount * 1.1)` and `int(amount / 41.22)` on the
  non-negative integer amounts extracted by the regexes is modelled by exact
  truncated rational arithmetic: `amount * 11 / 10` and `amount * 100 / 4122`
  in `Nat` (truncating division), matching the spec's description of the
  conversions ("×1.1, truncated", "÷41.22 with truncation").
* Python `re` character classes `\d` / `\s` are modelled on the ASCII range
  (`Char.isDigit`, `isSpaceChar`), which covers every text the claims range
  over; `str.lower()` is modelled for ASCII letters plus the Cyrillic letters
  occurring in the odometer unit markers.
-/

namespace ParseAutoRia

/-- Python `\s` (ASCII range): space, tab, newline, carriage return,
vertical tab, form feed. -/
def isSpaceChar (c : Char) : Bool :=
  c = ' ' || c = '\t' || c = '\n' || c = '\r' || c = '\x0b' || c = '\x0c'

/-- `str.lower()` restricted to ASCII letters plus the Cyrillic letters that
occur in the odometer unit markers (`тис`, `тыс`, `км`). -/
def pyLowerChar (c : Char) : Char :=
  if c = 'Т' then 'т' else if c = 'И' then 'и' else if c = 'С' then 'с'
  else if c = 'Ы' then 'ы' else if c = 'К' then 'к' else if c = 'М' then 'м'
  else c.toLower

/-- Value of a list of decimal digit characters (the regex guarantees only
digits reach `int()` in the non-raising cases). -/
def digitsToNat (cs : List Char) : Nat :=
  cs.foldl (fun a c => a * 10 + (c.toNat - '0'.toNat)) 0

/-- Does `text` contain `pat` as a contiguous subsequence?  Models Python's
`pat in text` on strings. -/
def containsSeq (text pat : List Char) : Bool :=
  match text with
  | [] => pat.isEmpty
  | _ :: t => List.isPrefixOf pat text || containsSeq t pat

/-- src/utils.py `parse_odometer`.  The regex
`(\d+(?:\s*\d+)?)\s*(тис\.?|тыс\.?|км)?` is searched in the lowered string:
group 1 is the first digit run, greedily extended by one
whitespace-separated second digit run; group 2 is an optional unit marker.
`int(match.group(1))` raises `ValueError` (modelled as `none`) exactly when
the captured group contains the whitespace of a second digit run.  The value
is multiplied by 1000 only when the matched marker contains `тис`, i.e. when
the text after group 1 and intervening whitespace starts with `тис`. -/
def parse_odometer (s : String) : Option Int :=
  if s = "" then some 0
  else
    let cs := s.data.map pyLowerChar
    let rest0 := cs.dropWhile (fun c => !c.isDigit)
    if rest0 = [] then some 0
    else
      let r1 := rest0.takeWhile Char.isDigit
      let rest1 := rest0.dropWhile Char.isDigit
      let w := rest1.takeWhile isSpaceChar
      let restw := rest1.dropWhile isSpaceChar
      let r2 := restw.takeWhile Char.isDigit
      if w ≠ [] ∧ r2 ≠ [] then
        none
      else
        let value : Int := (digitsToNat r1 : Nat)
        if List.isPrefixOf ['т', 'и', 'с'] restw then some (value * 1000)
        else some value

/-- src/utils.py `parse_price` text cleaning:
`price_text.strip().replace(" ", "")`. -/
def cleanPrice (s : String) : List Char :=
  (((s.data.dropWhile isSpaceChar).reverse.dropWhile isSpaceChar).reverse).filter
    (fun c => c ≠ ' ')

/-- The first digit run of the cleaned price text (regex `(\d+)`), as a
number; `0` when there is no digit. -/
def priceAmount (s : String) : Nat :=
  digitsToNat (((cleanPrice s).dropWhile (fun c => !c.isDigit)).takeWhile Char.isDigit)

/-- src/utils.py `parse_price`.  Empty or `"0"` input yields 0; otherwise the
first digit run of the cleaned text is converted: a Euro symbol anywhere in
the cleaned text converts ×1.1 truncated, else a `грн` token converts ÷41.22
truncated, else the amount is returned unchanged (assumed USD). -/
def parse_price (s : String) : Int :=
  if s = "" ∨ s = "0" then 0
  else
    let clean := cleanPrice s
    let rest0 := clean.dropWhile (fun c => !c.isDigit)
    if rest0 = [] then 0
    else
      let amount : Nat := digitsToNat (rest0.takeWhile Char.isDigit)
      if clean.contains '€' then ((amount * 11) / 10 : Nat)
      else if containsSeq clean ['г', 'р', 'н'] then ((amount * 100) / 4122 : Nat)
      else amount

/-- The digit characters of a phone string, in order
(`re.sub(r"\D", "", phone_str)`). -/
def phoneDigits (s : String) : List Char :=
  s.data.filter Char.isDigit

/-- Python `digits[-9:]`: the last `n` elements (the whole list when it is
shorter). -/
def lastN (n : Nat) (xs : List Char) : List Char :=
  xs.drop (xs.length - n)

/-- src/utils.py `parse_phone`: strip non-digits, then branch on digit count
and leading digits. -/
def parse_phone (s : String) : String :=
  if s = "" then ""
  else
    let ds := phoneDigits s
    if List.isPrefixOf ['3', '8', '0'] ds ∧ ds.length = 11 then ⟨'+' :: ds⟩
    else if List.isPrefixOf ['8', '0'] ds ∧ ds.length = 10 then ⟨'+' :: '3' :: ds⟩
    else if List.isPrefixOf ['0'] ds ∧ ds.length = 9 then ⟨'+' :: '3' :: '8' :: ds⟩
    else if ds = [] then "" else ⟨'+' :: '3' :: '8' :: '0' :: lastN 9 ds⟩

/-- The canonical phone shape of the spec: `+380` followed by exactly nine
digit characters. -/
def isCanonicalPhone (t : String) : Bool :=
  List.isPrefixOf ['+', '3', '8', '0'] t.data
    && (t.data.drop 4).length = 9 && (t.data.drop 4).all Char.isDigit

/-! ## Existence filter (src/scraper.py `bulk_check_existence`, `process_page`) -/

/-- The persistence collaborator as the existence filter sees it: the set of
URLs the store already knows, and whether the bulk lookup succeeds. -/
structure Store where
  known : List String
  ok : Bool

/-- First-occurrence deduplication, the key order and multiplicity semantics
of a Python dict comprehension `{url: ... for url in urls}`. -/
def dedupKeepFirst : List String → List String
  | [] => []
  | u :: t => u :: dedupKeepFirst (t.filter (fun v => v ≠ u))
  termination_by l => l.length
  decreasing_by
    simp only [List.length_cons]
    exact Nat.lt_succ_of_le (List.length_filter_le _ _)

/-- src/scraper.py `bulk_check_existence`: on a successful lookup, a dict
mapping each input URL to whether the store knows it; on any failure, every
input URL is mapped to `False`. -/
def bulk_check_existence (st : Store) (urls : List String) : List (String × Bool) :=
  if st.ok then (dedupKeepFirst urls).map (fun u => (u, decide (u ∈ st.known)))
  else (dedupKeepFirst urls).map (fun u => (u, false))

/-- src/scraper.py `process_page` new-links filter:
`[url for url, exists in existence_results.items() if not exists]`. -/
def new_car_links (st : Store) (urls : List String) : List String :=
  (bulk_check_existence st urls).filterMap
    (fun p => if p.2 then none else some p.1)

/-! ## Fetcher (src/scraper.py `AutoRiaScraper.fetch`) -/

/-- Outcome of one HTTP GET attempt: a 200 response with a body, a non-200
status code, or a transport-level exception (caught and logged by `fetch`). -/
inductive FetchOutcome where
  | success (body : String)
  | status (code : Nat)
  | fault
deriving DecidableEq

/-- Did the attempt return HTTP 200? -/
def FetchOutcome.isSuccess : FetchOutcome → Bool
  | .success _ => true
  | _ => false

/-- Did the attempt return HTTP 429 (rate limited)? -/
def FetchOutcome.isRateLimited : FetchOutcome → Bool
  | .status c => c = 429
  | _ => false

/-- The attempt loop of `fetch`, over an environment `env` giving the outcome
of each attempt index.  Returns the result and the list of backoff sleeps
performed (`asyncio.sleep(5 * (attempt + 1))` on a 429; the random pacing
jitter before each attempt is not recorded).  A 200 returns the body at once;
a 429 records its backoff and falls through to the next attempt; any other
status or a transport fault ends the attempt with no special handling. -/
def fetchGo (env : Nat → FetchOutcome) : Nat → Nat → Option String × List Nat
  | _, 0 => (none, [])
  | attempt, fuel + 1 =>
    match env attempt with
    | .success body => (some body, [])
    | .status c =>
      if c = 429 then
        ((fetchGo env (attempt + 1) fuel).1,
          5 * (attempt + 1) :: (fetchGo env (attempt + 1) fuel).2)
      else fetchGo env (attempt + 1) fuel
    | .fault => fetchGo env (attempt + 1) fuel

/-- src/scraper.py `AutoRiaScraper.fetch`: up to `retry_attempts`
(= `settings.RETRY_ATTEMPTS`) attempts starting at attempt index 0; `None`
once all attempts are exhausted. -/
def fetch (env : Nat → FetchOutcome) (retry_attempts : Nat) :
    Option String × List Nat :=
  fetchGo env 0 retry_attempts

/-! ## Store sink (src/database.py `get_db`, `save_cars`) -/

/-- The database as the store sink sees it: the persisted rows and whether
the bulk-insert transaction commits. -/
structure DB (α : Type) where
  rows : List α
  commitOk : Bool

/-- src/database.py `get_db` wrapping `session.add_all(cars)` plus commit:
on success the whole batch is appended in one transaction; on failure the
session is rolled back (rows unchanged) and the exception re-raised. -/
def get_db_save {α : Type} (db : DB α) (batch : List α) : Except String (DB α) :=
  if db.commitOk then .ok { db with rows := db.rows ++ batch }
  else .error "database error"

/-- src/database.py `save_cars`: one `get_db` transaction around the bulk
insert; any exception is caught and logged (second component `true`) and
never re-raised — the function is total.  The third component counts insert
transactions attempted: the code has no retry loop, so it is always 1. -/
def save_cars {α : Type} (db : DB α) (batch : List α) : DB α × Bool × Nat :=
  match get_db_save db batch with
  | .ok db' => (db', false, 1)
  | .error _ => (db, true, 1)

/-! ## Helper lemmas -/

/-- A string built from a nonempty character list is not the empty string. -/
theorem mk_cons_ne_empty (c : Char) (cs : List Char) : (⟨c :: cs⟩ : String) ≠ "" :=
  fun h => List.cons_ne_nil c cs (congrArg String.data h)

/-- First-occurrence deduplication preserves membership. -/
theorem mem_dedupKeepFirst (u : String) :
    ∀ l : List String, u ∈ dedupKeepFirst l ↔ u ∈ l := by
  intro l
  induction l using dedupKeepFirst.induct with
  | case1 => simp [dedupKeepFirst]
  | case2 v t ih =>
    simp only [dedupKeepFirst, List.mem_cons, ih, List.mem_filter]
    by_cases hv : u = v
    · simp [hv]
    · simp [hv]

/-! ## Claims about the Normalizer -/

/-- C1 counterexample: the claim predicts `parse_price` of a Hryvnia text
carrying amount 300000 returns 7277, but truncating 300000 / 41.22 ≈ 7278.02
gives 7278, not 7277. -/
theorem C1_counterexample :
    parse_price "300000 грн" = 7278 ∧ parse_price "300000 грн" ≠ 7277 := by
  decide

/-- C1 (amended): for every price text whose cleaned form carries the Hryvnia
token (and no Euro symbol, which is checked first), `parse_price` divides the
extracted amount by 41.22 with truncation — the result times 4122 never
exceeds the amount times 100, i.e. it never rounds up — and in particular the
amount 300000 yields 7278. -/
theorem C1_hryvnia_truncation :
    (∀ s : String, '€' ∉ cleanPrice s →
        containsSeq (cleanPrice s) ['г', 'р', 'н'] = true →
        parse_price s = ((priceAmount s * 100) / 4122 : Nat) ∧
          (priceAmount s * 100) / 4122 * 4122 ≤ priceAmount s * 100) ∧
    parse_price "300000 грн" = 7278 := by
  refine ⟨fun s hE hG => ⟨?_, Nat.div_mul_le_self _ _⟩, by decide⟩
  simp only [parse_price]
  split_ifs with h0 h1 h2
  · rcases h0 with h | h <;> subst h <;> exact absurd hG (by decide)
  · simp [priceAmount, h1, digitsToNat]
  · exact absurd (by simpa using h2) hE
  · simp [priceAmount]

/-- C1 witness: the amended Hryvnia law applied at the concrete text
"300000 грн". -/
theorem C1_hryvnia_truncation_witness :
    '€' ∉ cleanPrice "300000 грн" ∧
      containsSeq (cleanPrice "300000 грн") ['г', 'р', 'н'] = true ∧
      parse_price "300000 грн" =
        ((priceAmount "300000 грн" * 100) / 4122 : Nat) :=
  ⟨by decide, by decide,
    (C1_hryvnia_truncation.1 "300000 грн" (by decide) (by decide)).1⟩

/-- C2 (code bug): the Russian thousands marker `тыс` is captured by the
regex and named in the code's own comment, yet the `"тис" in multiplier`
containment test never matches it, so the bare number is returned instead of
number × 1000; the Ukrainian marker `тис` does multiply. -/
theorem C2_russian_thousands_marker_bug :
    parse_odometer "95 тыс" = some 95 ∧ parse_odometer "95 тис" = some 95000 := by
  decide

/-- C3 (code bug): on a space-grouped digit run such as "95 000 км" — which
the regex deliberately captures as one group — `int()` raises `ValueError`
(modelled as `none`), so `parse_odometer` is not total; absence of any number
does yield 0. -/
theorem C3_grouped_digits_value_error :
    parse_odometer "95 000 км" = none ∧ parse_odometer "" = some 0 ∧
      parse_odometer "no digits here" = some 0 := by
  decide

/-- C7: `parse_price "6 999 $"` = 6999, `parse_price "24 200 €"` = 26620
(24200 × 1.1 truncated), and any text whose cleaned form has no recognized
currency symbol returns the extracted amount unchanged (assumed USD). -/
theorem C7_price_examples_and_usd :
    parse_price "6 999 $" = 6999 ∧ parse_price "24 200 €" = 26620 ∧
      ∀ s : String, '€' ∉ cleanPrice s →
        containsSeq (cleanPrice s) ['г', 'р', 'н'] = false →
        parse_price s = (priceAmount s : Int) := by
  refine ⟨by decide, by decide, fun s hE hG => ?_⟩
  simp only [parse_price]
  split_ifs with h0 h1 h2 h3
  · rcases h0 with h | h <;> subst h <;> decide
  · simp [priceAmount, h1, digitsToNat]
  · exact absurd (by simpa using h2) hE
  · simp [hG] at h3
  · simp [priceAmount]

/-- C7 witness: the currency-free law applied at the concrete text "500". -/
theorem C7_price_examples_and_usd_witness :
    '€' ∉ cleanPrice "500" ∧
      containsSeq (cleanPrice "500") ['г', 'р', 'н'] = false ∧
      parse_price "500" = (priceAmount "500" : Int) :=
  ⟨by decide, by decide, C7_price_examples_and_usd.2.2 "500" (by decide) (by decide)⟩

/-- C8: the Normalizer's price value is always a non-negative integer, and
whenever the odometer parse produces a value (it is a pure function, hence
deterministic) that value is a non-negative integer. -/
theorem C8_normalizer_nonneg (s : String) :
    0 ≤ parse_price s ∧ ∀ v : Int, parse_odometer s = some v → 0 ≤ v := by
  constructor
  · simp only [parse_price]
    split_ifs <;> positivity
  · intro v h
    simp only [parse_odometer] at h
    split_ifs at h <;> simp only [Option.some.injEq] at h <;> omega

/-- Branch-form evaluation of `parse_phone`: the leading empty-string test of
the source is subsumed by the digit-list branches (an empty input has an empty
digit list). -/
theorem parse_phone_eq (s : String) :
    parse_phone s =
      if List.isPrefixOf ['3', '8', '0'] (phoneDigits s) ∧ (phoneDigits s).length = 11
        then ⟨'+' :: phoneDigits s⟩
      else if List.isPrefixOf ['8', '0'] (phoneDigits s) ∧ (phoneDigits s).length = 10
        then ⟨'+' :: '3' :: phoneDigits s⟩
      else if List.isPrefixOf ['0'] (phoneDigits s) ∧ (phoneDigits s).length = 9
        then ⟨'+' :: '3' :: '8' :: phoneDigits s⟩
      else if phoneDigits s = [] then ""
      else ⟨'+' :: '3' :: '8' :: '0' :: lastN 9 (phoneDigits s)⟩ := by
  by_cases hs : s = ""
  · subst hs; decide
  · simp only [parse_phone]
    rw [if_neg hs]

/-- C4 counterexample: the input "12345" (five digits) falls to the
last-9-digits fallback and yields "+38012345", which is neither of the
canonical shape `+380` + nine digits nor the empty string. -/
theorem C4_counterexample :
    parse_phone "12345" = "+38012345" ∧
      isCanonicalPhone (parse_phone "12345") = false ∧
      parse_phone "12345" ≠ "" := by
  decide

/-- C4 (amended): `parse_phone` is total and follows the digit-count/prefix
rules exactly (11 digits starting 380 keep all digits behind `+`; 10 digits
starting 80 get a `3` inserted; 9 digits starting 0 get `38` inserted;
otherwise the last 9 digits are prefixed with `+380`; no digits yield the
empty string), and every output on a digit-bearing input starts with `+` —
but the output need not be `+380` followed by exactly nine digits. -/
theorem C4_phone_rules (s : String) :
    (phoneDigits s = [] → parse_phone s = "") ∧
    (List.isPrefixOf ['3', '8', '0'] (phoneDigits s) ∧ (phoneDigits s).length = 11 →
      parse_phone s = ⟨'+' :: phoneDigits s⟩) ∧
    (List.isPrefixOf ['8', '0'] (phoneDigits s) ∧ (phoneDigits s).length = 10 →
      parse_phone s = ⟨'+' :: '3' :: phoneDigits s⟩) ∧
    (List.isPrefixOf ['0'] (phoneDigits s) ∧ (phoneDigits s).length = 9 →
      parse_phone s = ⟨'+' :: '3' :: '8' :: phoneDigits s⟩) ∧
    (¬(List.isPrefixOf ['3', '8', '0'] (phoneDigits s) ∧ (phoneDigits s).length = 11) →
      ¬(List.isPrefixOf ['8', '0'] (phoneDigits s) ∧ (phoneDigits s).length = 10) →
      ¬(List.isPrefixOf ['0'] (phoneDigits s) ∧ (phoneDigits s).length = 9) →
      phoneDigits s ≠ [] →
      parse_phone s = ⟨'+' :: '3' :: '8' :: '0' :: lastN 9 (phoneDigits s)⟩) ∧
    (phoneDigits s ≠ [] → (parse_phone s).data.head? = some '+') := by
  refine ⟨?_, ?_, ?_, ?_, ?_, ?_⟩
  · intro h; rw [parse_phone_eq, h]; decide
  · intro h; rw [parse_phone_eq, if_pos h]
  · intro h
    have hb1 : ¬(List.isPrefixOf ['3', '8', '0'] (phoneDigits s) ∧
        (phoneDigits s).length = 11) := by intro hb; omega
    rw [parse_phone_eq, if_neg hb1, if_pos h]
  · intro h
    have hb1 : ¬(List.isPrefixOf ['3', '8', '0'] (phoneDigits s) ∧
        (phoneDigits s).length = 11) := by intro hb; omega
    have hb2 : ¬(List.isPrefixOf ['8', '0'] (phoneDigits s) ∧
        (phoneDigits s).length = 10) := by intro hb; omega
    rw [parse_phone_eq, if_neg hb1, if_neg hb2, if_pos h]
  · intro hb1 hb2 hb3 hne
    rw [parse_phone_eq, if_neg hb1, if_neg hb2, if_neg hb3, if_neg hne]
  · intro hne
    rw [parse_phone_eq]
    split_ifs <;> rfl

/-- C4 witness: the 11-digit 380-prefixed rule applied at "38050123456". -/
theorem C4_phone_rules_witness :
    (List.isPrefixOf ['3', '8', '0'] (phoneDigits "38050123456") ∧
        (phoneDigits "38050123456").length = 11) ∧
      parse_phone "38050123456" = ⟨'+' :: phoneDigits "38050123456"⟩ :=
  ⟨by decide, (C4_phone_rules "38050123456").2.1 (by decide)⟩

/-- C10: `parse_phone` returns the empty string exactly when the input has no
digit character; with at least one digit the result is nonempty and starts
with `+`. -/
theorem C10_empty_iff_no_digits (s : String) :
    (parse_phone s = "" ↔ phoneDigits s = []) ∧
      (phoneDigits s ≠ [] →
        parse_phone s ≠ "" ∧ (parse_phone s).data.head? = some '+') := by
  constructor
  · constructor
    · intro h
      by_contra hne
      rw [parse_phone_eq] at h
      split_ifs at h <;> exact mk_cons_ne_empty _ _ h
    · intro h; rw [parse_phone_eq, h]; decide
  · intro hne
    constructor
    · rw [parse_phone_eq]
      split_ifs <;> exact mk_cons_ne_empty _ _
    · rw [parse_phone_eq]
      split_ifs <;> rfl

/-- C10 witness: the digit-bearing clause applied at the input "a1". -/
theorem C10_empty_iff_no_digits_witness :
    phoneDigits "a1" ≠ [] ∧ parse_phone "a1" ≠ "" ∧
      (parse_phone "a1").data.head? = some '+' :=
  ⟨by decide, ((C10_empty_iff_no_digits "a1").2 (by decide)).1,
    ((C10_empty_iff_no_digits "a1").2 (by decide)).2⟩

/-! ## Claims about the existence filter, fetcher and store sink -/

/-- C5: under a working store lookup the new-links filter returns exactly the
input URLs minus those the store already knows; under a failing lookup every
URL is marked as not existing and the filter returns the full input set. -/
theorem C5_existence_filter (st : Store) (urls : List String) (u : String) :
    (st.ok = true →
      (u ∈ new_car_links st urls ↔ u ∈ urls ∧ u ∉ st.known)) ∧
    (st.ok = false →
      (∀ p ∈ bulk_check_existence st urls, p.2 = false) ∧
        (u ∈ new_car_links st urls ↔ u ∈ urls)) := by
  constructor
  · intro hok
    simp [new_car_links, bulk_check_existence, hok, List.filterMap_map,
      List.mem_filterMap, mem_dedupKeepFirst]
  · intro hok
    refine ⟨?_, ?_⟩
    · intro p hp
      simp [bulk_check_existence, hok] at hp
      obtain ⟨v, _, hv⟩ := hp
      simp [← hv]
    · simp [new_car_links, bulk_check_existence, hok, List.filterMap_map,
        List.mem_filterMap, mem_dedupKeepFirst]

/-- C5 witness: the success clause applied at a concrete store and URL set. -/
theorem C5_existence_filter_witness :
    (Store.mk ["a"] true).ok = true ∧
      ("b" ∈ new_car_links (Store.mk ["a"] true) ["a", "b"] ↔
        "b" ∈ ["a", "b"] ∧ "b" ∉ ["a"]) :=
  ⟨rfl, (C5_existence_filter (Store.mk ["a"] true) ["a", "b"] "b").1 rfl⟩

/-- The retry loop under total failure: when no attempt in the window
succeeds, the loop returns `none` and its recorded backoff sleeps are exactly
`5 * (index + 1)` for each rate-limited attempt index, nothing for any other
failure. -/
theorem fetchGo_exhausted (env : Nat → FetchOutcome) :
    ∀ (fuel attempt : Nat),
      (∀ i, i < fuel → (env (attempt + i)).isSuccess = false) →
      fetchGo env attempt fuel =
        (none, (List.range fuel).filterMap
          (fun i => if (env (attempt + i)).isRateLimited = true
            then some (5 * (attempt + i + 1)) else none)) := by
  intro fuel
  induction fuel with
  | zero => intro attempt _; rfl
  | succ n ih =>
    intro attempt h
    have h0 : (env attempt).isSuccess = false := by
      have := h 0 (by omega)
      rwa [Nat.add_zero] at this
    have hrec := ih (attempt + 1) (fun i hi => by
      have := h (i + 1) (by omega)
      rwa [show attempt + (i + 1) = attempt + 1 + i by omega] at this)
    have hfun : ((fun i => if (env (attempt + i)).isRateLimited = true
          then some (5 * (attempt + i + 1)) else none) ∘ Nat.succ) =
        (fun i => if (env (attempt + 1 + i)).isRateLimited = true
          then some (5 * (attempt + 1 + i + 1)) else none) := by
      funext i
      simp only [Function.comp]
      rw [show attempt + Nat.succ i = attempt + 1 + i by omega]
    rw [List.range_succ_eq_map, List.filterMap_cons, List.filterMap_map, hfun]
    cases henv : env attempt with
    | success body => rw [henv] at h0; simp [FetchOutcome.isSuccess] at h0
    | status c =>
      by_cases hc : c = 429
      · subst hc
        have hL : fetchGo env attempt (n + 1) =
            ((fetchGo env (attempt + 1) n).1,
              5 * (attempt + 1) :: (fetchGo env (attempt + 1) n).2) := by
          simp [fetchGo, henv]
        rw [hL, hrec]
        simp [Nat.add_zero, henv, FetchOutcome.isRateLimited]
      · have hL : fetchGo env attempt (n + 1) = fetchGo env (attempt + 1) n := by
          simp [fetchGo, henv, hc]
        rw [hL, hrec]
        simp [Nat.add_zero, henv, FetchOutcome.isRateLimited, hc]
    | fault =>
      have hL : fetchGo env attempt (n + 1) = fetchGo env (attempt + 1) n := by
        simp [fetchGo, henv]
      rw [hL, hrec]
      simp [Nat.add_zero, henv, FetchOutcome.isRateLimited]

/-- C6: when every one of the configured `n` attempts fails (any non-200
status or transport fault), `fetch` returns `none` rather than an error, and
the backoff sleeps it performed are exactly `5 * (attempt + 1)` for each
rate-limited (429) attempt — growing linearly with the attempt number — and
nothing for any other failed attempt. -/
theorem C6_fetch_retry_backoff (env : Nat → FetchOutcome) (n : Nat)
    (h : ∀ i, i < n → (env i).isSuccess = false) :
    fetch env n =
      (none, (List.range n).filterMap
        (fun i => if (env i).isRateLimited = true
          then some (5 * (i + 1)) else none)) := by
  have := fetchGo_exhausted env n 0 (fun i hi => by simpa using h i hi)
  simpa [fetch] using this

/-- C6 witness: a two-attempt run whose first attempt is rate limited and
whose second hits a transport fault returns `none` after one backoff of 5. -/
theorem C6_fetch_retry_backoff_witness :
    ((fun j => if j = 0 then FetchOutcome.status 429 else FetchOutcome.fault) 0).isSuccess
        = false ∧
      fetch (fun j => if j = 0 then FetchOutcome.status 429 else FetchOutcome.fault) 2 =
        (none, (List.range 2).filterMap
          (fun i => if ((fun j => if j = 0 then FetchOutcome.status 429
              else FetchOutcome.fault) i).isRateLimited = true
            then some (5 * (i + 1)) else none)) :=
  ⟨by decide,
    C6_fetch_retry_backoff
      (fun j => if j = 0 then FetchOutcome.status 429 else FetchOutcome.fault) 2
      (by decide)⟩

/-- C9: when the bulk-insert transaction fails, `save_cars` leaves the store
exactly unchanged (the whole batch is dropped, no partial commit), logs the
failure, and returns normally; on success the whole batch is appended; in
both cases exactly one insert transaction is attempted (no retry). -/
theorem C9_save_cars_batch_drop {α : Type} (db : DB α) (batch : List α) :
    (db.commitOk = false →
      (save_cars db batch).1.rows = db.rows ∧ (save_cars db batch).2.1 = true) ∧
    (db.commitOk = true →
      (save_cars db batch).1.rows = db.rows ++ batch ∧
        (save_cars db batch).2.1 = false) ∧
    (save_cars db batch).2.2 = 1 := by
  obtain ⟨rows, ok⟩ := db
  cases ok <;> simp [save_cars, get_db_save]

/-- C9 witness: a failing commit on a concrete store drops the batch [2, 3]
and keeps the rows [1]. -/
theorem C9_save_cars_batch_drop_witness :
    (DB.mk [1] false).commitOk = false ∧
      (save_cars (DB.mk [1] false) [2, 3]).1.rows = (DB.mk [1] false).rows ∧
      (save_cars (DB.mk [1] false) [2, 3]).2.1 = true :=
  ⟨rfl, (C9_save_cars_batch_drop (DB.mk [1] false) [2, 3]).1 rfl⟩

/-- C8 witness: the odometer clause applied at the concrete text "100". -/
theorem C8_normalizer_nonneg_witness :
    parse_odometer "100" = some 100 ∧ (0 : Int) ≤ 100 ∧ 0 ≤ parse_price "100" :=
  ⟨by decide, (C8_normalizer_nonneg "100").2 100 (by decide),
    (C8_normalizer_nonneg "100").1⟩

end ParseAutoRia
